import Mathlib

/-!
Verification of the SBD (Iridium Short Burst Data) message codec.

This file gives a shallow embedding, in Lean, of the Rust sources
`src/lib.rs` (the `SbdError` type) and `src/mt/mod.rs` (the Mobile
Terminated information elements: `DispositionFlags`, `Header`, `Payload`,
`InformationElement`, and their `write` methods), together with theorems
about the wire format they produce.

Modelling conventions:
* Bytes are `Nat` values; a byte written by the writer is reduced mod 256,
  exactly as the `u8` lanes of the machine writer truncate.
* A Rust writer (`W: std::io::Write`, instantiated at `Vec<u8>` in the
  sources and their tests) is modelled as a `List Nat` accumulator; a
  `write` method takes the accumulator and returns the grown accumulator
  together with the `usize` it returns in `Ok(..)`.
* A Rust panic (the `expect` inside `Payload::write`) is modelled as
  `Option.none`: the function produces no output at all on that path.
-/

namespace Sbd

/-- Big-endian byte pair of a 16-bit value, as produced by
`write_u16::<BigEndian>` of the byteorder crate: high byte then low byte,
each lane reduced mod 256. -/
def be16 (v : Nat) : List Nat := [v / 2 ^ 8 % 2 ^ 8, v % 2 ^ 8]

/-- Big-endian byte quadruple of a 32-bit value, as produced by
`write_u32::<BigEndian>`: most significant byte first. -/
def be32 (v : Nat) : List Nat :=
  [v / 2 ^ 24 % 2 ^ 8, v / 2 ^ 16 % 2 ^ 8, v / 2 ^ 8 % 2 ^ 8, v % 2 ^ 8]

/-- Embedding of `WriteBytesExt::write_u8` on a `Vec<u8>` writer: append one
byte. -/
def writeU8 (wtr : List Nat) (b : Nat) : List Nat := wtr ++ [b % 2 ^ 8]

/-- Embedding of `write_u16::<BigEndian>` on a `Vec<u8>` writer. -/
def writeU16be (wtr : List Nat) (v : Nat) : List Nat := wtr ++ be16 v

/-- Embedding of `write_u32::<BigEndian>` on a `Vec<u8>` writer. -/
def writeU32be (wtr : List Nat) (v : Nat) : List Nat := wtr ++ be32 v

/-- Embedding of `std::io::Write::write(&buf)` on a `Vec<u8>` writer: append
all the bytes of the buffer. -/
def writeBytes (wtr : List Nat) (bs : List Nat) : List Nat := wtr ++ bs

/-- The `DispositionFlags` struct of `src/mt/mod.rs` (Table 5-9): five named
boolean flags. -/
structure DispositionFlags where
  flush_queue : Bool
  send_ring_alert : Bool
  update_location : Bool
  high_priority : Bool
  assign_mtmsn : Bool
deriving DecidableEq

/-- Embedding of `DispositionFlags::encode`: the same shift-and-add
expression as the source, on `Nat` (the shifts cannot overflow a `u16`). -/
def DispositionFlags.encode (f : DispositionFlags) : Nat :=
  (f.assign_mtmsn.toNat <<< 5)
    + (f.high_priority.toNat <<< 4)
    + (f.update_location.toNat <<< 3)
    + (f.send_ring_alert.toNat <<< 1)
    + f.flush_queue.toNat

/-- Embedding of `DispositionFlags::write`: write the encoded `u16`
big-endian, return `Ok(2)`. -/
def DispositionFlags.write (f : DispositionFlags) (wtr : List Nat) :
    List Nat × Nat :=
  (writeU16be wtr f.encode, 2)

/-- The MT `Header` struct of `src/mt/mod.rs`: a `u32` client message id, a
15-byte IMEI, and a `u16` of disposition flags. The fixed-size Rust array
`[u8; 15]` is modelled as a `List Nat`; the length-15 and byte-range
constraints appear as hypotheses or validity predicates where they matter. -/
structure Header where
  client_msg_id : Nat
  imei : List Nat
  disposition_flags : Nat
deriving DecidableEq

/-- Embedding of `Header::len`: the fixed body length, 21. -/
def Header.len (_ : Header) : Nat := 21

/-- Embedding of `Header::write`: tag `0x41`, length 21 big-endian, the
`u32` client message id big-endian, the 15 IMEI bytes verbatim, the `u16`
disposition flags big-endian; returns `Ok(24)`. -/
def Header.write (h : Header) (wtr : List Nat) : List Nat × Nat :=
  let w1 := writeU8 wtr 0x41
  let w2 := writeU16be w1 21
  let w3 := writeU32be w2 h.client_msg_id
  let w4 := writeBytes w3 h.imei
  let w5 := writeU16be w4 h.disposition_flags
  (w5, 24)

/-- Embedding of `Header::to_vec`: write into a fresh buffer and return it. -/
def Header.to_vec (h : Header) : List Nat := (h.write []).1

/-- The MT `Payload` struct of `src/mt/mod.rs`: an owned byte vector. -/
structure Payload where
  payload : List Nat
deriving DecidableEq

/-- Embedding of `Payload::len`: the byte count of the payload. -/
def Payload.len (p : Payload) : Nat := p.payload.length

/-- Embedding of `Payload::write`: tag `0x42`, then the payload length as a
big-endian `u16`, then the raw payload bytes; returns `Ok(3 + n)`. The
`n.try_into().expect(..)` of the source panics when the length does not fit
in a `u16`; that path is modelled as `none`. No other length check exists
in the source. -/
def Payload.write (p : Payload) (wtr : List Nat) : Option (List Nat × Nat) :=
  let w1 := writeU8 wtr 0x42
  let n := p.payload.length
  if n < 2 ^ 16 then
    let w2 := writeU16be w1 n
    let w3 := writeBytes w2 p.payload
    some (w3, 3 + n)
  else
    none

/-- The `InformationElement` enum of `src/mt/mod.rs`. -/
inductive InformationElement where
  | H : Header → InformationElement
  | P : Payload → InformationElement
deriving DecidableEq

/-- Embedding of `InformationElement::write`: dispatch to the variant. The
`Header` arm cannot fail; the `Payload` arm inherits the panic path. -/
def InformationElement.write (ie : InformationElement) (wtr : List Nat) :
    Option (List Nat × Nat) :=
  match ie with
  | .H h => some (h.write wtr)
  | .P p => p.write wtr

/-- The `SbdError` enum of `src/lib.rs`. The payloads of the wrapped
external error types (`byteorder::Error`, `std::io::Error`, glob errors)
are abstracted to `Unit`; `usize` is modelled as `Nat` and `u8` as
`Fin 256`. -/
inductive SbdError where
  | Byteorder : Unit → SbdError
  | Io : Unit → SbdError
  | InvalidImei : SbdError
  | InvalidProtocolRevisionNumber : Fin 256 → SbdError
  | Glob : Unit → SbdError
  | MissingMobileOriginatedHeader : SbdError
  | MissingMobileOriginatedPayload : SbdError
  | Oversized : SbdError
  | Pattern : Unit → SbdError
  | Undersized : Nat → SbdError
deriving DecidableEq

/-- Message direction: Mobile Originated or Mobile Terminated (spec sections
1 and 6). Only the MT information elements appear under `src/`; the spec
says the MO framing mirrors the MT framing with tags `0x01`/`0x02`. -/
inductive Direction where
  | MO : Direction
  | MT : Direction
deriving DecidableEq

/-- Header tag byte per direction: `0x01` for MO, `0x41` for MT (spec
section 6 and the tag table at the top of `src/mt/mod.rs`). -/
def headerIEI : Direction → Nat
  | .MO => 0x01
  | .MT => 0x41

/-- Payload tag byte per direction: `0x02` for MO, `0x42` for MT. -/
def payloadIEI : Direction → Nat
  | .MO => 0x02
  | .MT => 0x42

/-- Modelled from the spec: direction-generic header write. Section 6 of
the spec says MO framing mirrors the MT framing with header tag `0x01`; the
body layout is the MT one of `Header::write`. At direction `MT` this
definition coincides with the source `Header.write` (theorem
`headerWriteDir_MT` below). -/
def Header.writeDir (d : Direction) (h : Header) (wtr : List Nat) :
    List Nat × Nat :=
  let w1 := writeU8 wtr (headerIEI d)
  let w2 := writeU16be w1 21
  let w3 := writeU32be w2 h.client_msg_id
  let w4 := writeBytes w3 h.imei
  let w5 := writeU16be w4 h.disposition_flags
  (w5, 24)

/-- Modelled from the spec: direction-generic payload write, mirroring
`Payload::write` with the direction-dependent tag byte. At direction `MT`
it coincides with the source `Payload.write`. -/
def Payload.writeDir (d : Direction) (p : Payload) (wtr : List Nat) :
    Option (List Nat × Nat) :=
  let w1 := writeU8 wtr (payloadIEI d)
  let n := p.payload.length
  if n < 2 ^ 16 then
    let w2 := writeU16be w1 n
    let w3 := writeBytes w2 p.payload
    some (w3, 3 + n)
  else
    none

/-- Modelled from the spec: direction-generic information element write. -/
def InformationElement.writeDir (d : Direction) (ie : InformationElement)
    (wtr : List Nat) : Option (List Nat × Nat) :=
  match ie with
  | .H h => some (h.writeDir d wtr)
  | .P p => p.writeDir d wtr

/-- Modelled from the spec (section 3 data model): a Message is an ordered
sequence of information elements; the protocol revision is fixed at 1 and
the overall length field is determined by the elements, so neither is a
stored field. -/
structure Message where
  ies : List InformationElement
deriving DecidableEq

/-- Modelled from the spec: write each information element in order into
the accumulator, failing if any element write fails. -/
def encodeIEs (d : Direction) : List InformationElement → List Nat →
    Option (List Nat)
  | [], wtr => some wtr
  | ie :: rest, wtr =>
    match ie.writeDir d wtr with
    | none => none
    | some (wtr2, _) => encodeIEs d rest wtr2

/-- Modelled from the spec (section 4.2 encode): write protocol revision 1,
then the overall length (the summed encoded byte length of the elements) as
a big-endian `u16`, then each element in order. Fails if an element write
fails or the overall length does not fit the 16-bit length field. -/
def Message.encode (d : Direction) (m : Message) : Option (List Nat) :=
  match encodeIEs d m.ies [] with
  | none => none
  | some body =>
    if body.length < 2 ^ 16 then
      some (writeU16be (writeU8 [] 1) body.length ++ body)
    else
      none

/-- Modelled from the spec (section 7 error taxonomy): the decode-side
error kinds. `MissingHeader` and `MissingPayload` stand for the
MissingMobileOriginated pair and their MT equivalents, per direction. -/
inductive DecodeError where
  | InvalidProtocolRevisionNumber : Nat → DecodeError
  | InvalidInformationElement : DecodeError
  | MissingHeader : DecodeError
  | MissingPayload : DecodeError
  | Undersized : Nat → DecodeError
  | IoError : DecodeError
deriving DecidableEq

/-- Read one byte from a byte stream. -/
def readU8 : List Nat → Option (Nat × List Nat)
  | [] => none
  | b :: rest => some (b, rest)

/-- Read a big-endian 16-bit value from a byte stream. -/
def readU16be : List Nat → Option (Nat × List Nat)
  | b1 :: b0 :: rest => some (b1 * 2 ^ 8 + b0, rest)
  | _ => none

/-- Read a big-endian 32-bit value from a byte stream. -/
def readU32be : List Nat → Option (Nat × List Nat)
  | b3 :: b2 :: b1 :: b0 :: rest =>
    some (((b3 * 2 ^ 8 + b2) * 2 ^ 8 + b1) * 2 ^ 8 + b0, rest)
  | _ => none

/-- Read exactly `n` bytes from a byte stream. -/
def readExact (n : Nat) (bytes : List Nat) : Option (List Nat × List Nat) :=
  if n ≤ bytes.length then some (bytes.take n, bytes.drop n) else none

/-- Does an information element hold a header? -/
def InformationElement.isHeader : InformationElement → Bool
  | .H _ => true
  | .P _ => false

/-- Does an information element hold a payload? -/
def InformationElement.isPayload : InformationElement → Bool
  | .H _ => false
  | .P _ => true

/-- Modelled from the spec (section 4.2 decode loop): repeatedly read a tag
byte, its 16-bit length field, and that many body bytes, dispatching on the
tag; an unrecognized tag, a header length other than 21, or a truncated
element is an error. The fuel argument bounds the number of elements; it is
called with the byte count, which suffices since every element consumes at
least one byte. -/
def parseIEs (d : Direction) : Nat → List Nat →
    Except DecodeError (List InformationElement)
  | _, [] => Except.ok []
  | 0, _ :: _ => Except.error DecodeError.IoError
  | fuel + 1, tag :: rest =>
    if tag = headerIEI d then
      match readU16be rest with
      | none => Except.error DecodeError.InvalidInformationElement
      | some (len, rest1) =>
        if len = 21 then
          match readExact 21 rest1 with
          | none => Except.error DecodeError.InvalidInformationElement
          | some (body, rest2) =>
            match readU32be body with
            | none => Except.error DecodeError.InvalidInformationElement
            | some (cmid, body1) =>
              match readExact 15 body1 with
              | none => Except.error DecodeError.InvalidInformationElement
              | some (imei, body2) =>
                match readU16be body2 with
                | none => Except.error DecodeError.InvalidInformationElement
                | some (flags, _) =>
                  match parseIEs d fuel rest2 with
                  | Except.error e => Except.error e
                  | Except.ok ies =>
                    Except.ok (InformationElement.H ⟨cmid, imei, flags⟩ :: ies)
        else
          Except.error DecodeError.InvalidInformationElement
    else if tag = payloadIEI d then
      match readU16be rest with
      | none => Except.error DecodeError.InvalidInformationElement
      | some (len, rest1) =>
        match readExact len rest1 with
        | none => Except.error DecodeError.InvalidInformationElement
        | some (pl, rest2) =>
          match parseIEs d fuel rest2 with
          | Except.error e => Except.error e
          | Except.ok ies => Except.ok (InformationElement.P ⟨pl⟩ :: ies)
    else
      Except.error DecodeError.InvalidInformationElement

/-- Modelled from the spec (section 4.2 decode): a stream shorter than the
minimum frame is `Undersized` with its actual byte count; a revision byte
other than 1 is `InvalidProtocolRevisionNumber` with that byte; then the
16-bit overall length is read, exactly that many bytes are taken (an early
end of stream is an I/O-class error), the element loop runs over them, and
the presence of at least one header and one payload element is verified. -/
def Message.decode (d : Direction) (stream : List Nat) :
    Except DecodeError Message :=
  if stream.length < 3 then
    Except.error (DecodeError.Undersized stream.length)
  else
    match stream with
    | [] => Except.error (DecodeError.Undersized 0)
    | rev :: rest =>
      if rev = 1 then
        match readU16be rest with
        | none => Except.error (DecodeError.Undersized stream.length)
        | some (len, rest1) =>
          if len ≤ rest1.length then
            match parseIEs d len (rest1.take len) with
            | Except.error e => Except.error e
            | Except.ok ies =>
              if ies.any InformationElement.isHeader then
                if ies.any InformationElement.isPayload then
                  Except.ok ⟨ies⟩
                else
                  Except.error DecodeError.MissingPayload
              else
                Except.error DecodeError.MissingHeader
          else
            Except.error DecodeError.IoError
      else
        Except.error (DecodeError.InvalidProtocolRevisionNumber rev)

/-- Validity of one information element (spec section 3): header fields in
their machine ranges with a 15-byte IMEI; payload of 1 to 1890 bytes, each
a byte. -/
def InformationElement.valid : InformationElement → Prop
  | .H h =>
    h.client_msg_id < 2 ^ 32 ∧ h.imei.length = 15 ∧
      (∀ b ∈ h.imei, b < 2 ^ 8) ∧ h.disposition_flags < 2 ^ 16
  | .P p =>
    1 ≤ p.payload.length ∧ p.payload.length ≤ 1890 ∧
      ∀ b ∈ p.payload, b < 2 ^ 8

instance (ie : InformationElement) : Decidable ie.valid :=
  match ie with
  | .H h =>
    inferInstanceAs (Decidable (h.client_msg_id < 2 ^ 32 ∧
      h.imei.length = 15 ∧ (∀ b ∈ h.imei, b < 2 ^ 8) ∧
      h.disposition_flags < 2 ^ 16))
  | .P p =>
    inferInstanceAs (Decidable (1 ≤ p.payload.length ∧
      p.payload.length ≤ 1890 ∧ ∀ b ∈ p.payload, b < 2 ^ 8))

/-- Validity of a message (spec section 3 invariant): at least one header
element and at least one payload element, every element valid. -/
def Message.valid (m : Message) : Prop :=
  m.ies.any InformationElement.isHeader = true ∧
    m.ies.any InformationElement.isPayload = true ∧
    ∀ ie ∈ m.ies, ie.valid

instance (m : Message) : Decidable m.valid :=
  inferInstanceAs (Decidable (_ ∧ _ ∧ ∀ ie ∈ m.ies, ie.valid))

/-- The byte sequence a direction-generic header write appends: tag, fixed
length 21 big-endian, client message id big-endian, the IMEI bytes
verbatim, the disposition flags big-endian. -/
def headerBytes (d : Direction) (h : Header) : List Nat :=
  headerIEI d ::
    (be16 21 ++ (be32 h.client_msg_id ++ (h.imei ++ be16 h.disposition_flags)))

/-- The byte sequence a direction-generic payload write appends when the
length fits a `u16`: tag, length big-endian, raw payload bytes. -/
def payloadBytes (d : Direction) (p : Payload) : List Nat :=
  payloadIEI d :: (be16 p.payload.length ++ p.payload)

/-- The byte sequence one information element write appends. -/
def ieBytes (d : Direction) : InformationElement → List Nat
  | .H h => headerBytes d h
  | .P p => payloadBytes d p

/-- The byte sequence a sequence of information element writes appends. -/
def iesBytes (d : Direction) : List InformationElement → List Nat
  | [] => []
  | ie :: rest => ieBytes d ie ++ iesBytes d rest

/-! Helper lemmas. -/

theorem headerIEI_lt (d : Direction) : headerIEI d < 2 ^ 8 := by
  cases d <;> decide

theorem payloadIEI_lt (d : Direction) : payloadIEI d < 2 ^ 8 := by
  cases d <;> decide

theorem payloadIEI_ne_headerIEI (d : Direction) :
    payloadIEI d ≠ headerIEI d := by
  cases d <;> decide

/-- At direction MT the spec-modelled generic header write coincides with
the source `Header::write`. -/
theorem headerWriteDir_MT (h : Header) (wtr : List Nat) :
    h.writeDir .MT wtr = h.write wtr := rfl

/-- At direction MT the spec-modelled generic payload write coincides with
the source `Payload::write`. -/
theorem payloadWriteDir_MT (p : Payload) (wtr : List Nat) :
    p.writeDir .MT wtr = p.write wtr := rfl

theorem headerWriteDir_eq (d : Direction) (h : Header) (wtr : List Nat) :
    h.writeDir d wtr = (wtr ++ headerBytes d h, 24) := by
  cases d <;>
    simp [Header.writeDir, headerBytes, headerIEI, writeU8, writeU16be,
      writeU32be, writeBytes, List.append_assoc]

theorem payloadWriteDir_eq (d : Direction) (p : Payload) (wtr : List Nat)
    (hlen : p.payload.length < 2 ^ 16) :
    p.writeDir d wtr = some (wtr ++ payloadBytes d p, 3 + p.payload.length) := by
  cases d <;>
    simp [Payload.writeDir, payloadBytes, payloadIEI, writeU8, writeU16be,
      writeBytes, hlen, List.append_assoc] <;> omega

theorem encodeIEs_eq (d : Direction) (ies : List InformationElement) :
    ∀ wtr : List Nat, (∀ ie ∈ ies, ie.valid) →
      encodeIEs d ies wtr = some (wtr ++ iesBytes d ies) := by
  induction ies with
  | nil => intro wtr _; simp [encodeIEs, iesBytes]
  | cons ie rest ih =>
    intro wtr hv
    have hie := hv ie (by simp)
    have hrest : ∀ x ∈ rest, x.valid := fun x hx => hv x (by simp [hx])
    cases ie with
    | H h =>
      simp [encodeIEs, InformationElement.writeDir, headerWriteDir_eq,
        iesBytes, ieBytes, ih _ hrest, List.append_assoc]
    | P p =>
      simp only [InformationElement.valid] at hie
      have hlen : p.payload.length < 2 ^ 16 := by omega
      simp [encodeIEs, InformationElement.writeDir,
        payloadWriteDir_eq _ _ _ hlen, iesBytes, ieBytes, ih _ hrest,
        List.append_assoc]

theorem readU16be_be16 (v : Nat) (rest : List Nat) (hv : v < 2 ^ 16) :
    readU16be (be16 v ++ rest) = some (v, rest) := by
  simp [be16, readU16be]
  omega

theorem readU32be_be32 (v : Nat) (rest : List Nat) (hv : v < 2 ^ 32) :
    readU32be (be32 v ++ rest) = some (v, rest) := by
  simp [be32, readU32be]
  omega

theorem readExact_append (n : Nat) (bs rest : List Nat)
    (h : bs.length = n) : readExact n (bs ++ rest) = some (bs, rest) := by
  subst h
  simp [readExact]

theorem parseIEs_iesBytes (d : Direction) (ies : List InformationElement) :
    ∀ fuel : Nat, (∀ ie ∈ ies, ie.valid) →
      (iesBytes d ies).length ≤ fuel →
      parseIEs d fuel (iesBytes d ies) = Except.ok ies := by
  induction ies with
  | nil =>
    intro fuel _ _
    cases fuel <;> rfl
  | cons ie rest ih =>
    intro fuel hv hlen
    have hie := hv ie (by simp)
    have hrest : ∀ x ∈ rest, x.valid := fun x hx => hv x (by simp [hx])
    have hbytes : iesBytes d (ie :: rest) = ieBytes d ie ++ iesBytes d rest :=
      rfl
    cases ie with
    | H h =>
      simp only [InformationElement.valid] at hie
      obtain ⟨hcm, him, _, hfl⟩ := hie
      obtain ⟨f, rfl⟩ : ∃ f, fuel = f + 1 := by
        cases fuel with
        | zero =>
          exfalso
          simp [iesBytes, ieBytes, headerBytes] at hlen
        | succ f => exact ⟨f, rfl⟩
      have h1 : readU16be
          (be16 21 ++ (be32 h.client_msg_id ++ (h.imei ++
            (be16 h.disposition_flags ++ iesBytes d rest))))
          = some (21, be32 h.client_msg_id ++ (h.imei ++
            (be16 h.disposition_flags ++ iesBytes d rest))) :=
        readU16be_be16 21 _ (by norm_num)
      have h2 : readExact 21
          (be32 h.client_msg_id ++ (h.imei ++
            (be16 h.disposition_flags ++ iesBytes d rest)))
          = some (be32 h.client_msg_id ++ (h.imei ++
              be16 h.disposition_flags), iesBytes d rest) := by
        have h2a := readExact_append 21
          (be32 h.client_msg_id ++ (h.imei ++ be16 h.disposition_flags))
          (iesBytes d rest) (by simp [be32, be16, him])
        simpa [List.append_assoc] using h2a
      have h3 : readU32be (be32 h.client_msg_id ++ (h.imei ++
          be16 h.disposition_flags))
          = some (h.client_msg_id, h.imei ++ be16 h.disposition_flags) :=
        readU32be_be32 _ _ hcm
      have h4 : readExact 15 (h.imei ++ be16 h.disposition_flags)
          = some (h.imei, be16 h.disposition_flags) :=
        readExact_append _ _ _ him
      have h5 : readU16be (be16 h.disposition_flags)
          = some (h.disposition_flags, []) := by
        have := readU16be_be16 h.disposition_flags [] hfl
        simpa using this
      have hfuel2 : (iesBytes d rest).length ≤ f := by
        have h6 : (iesBytes d (InformationElement.H h :: rest)).length
            = (headerBytes d h).length + (iesBytes d rest).length := by
          simp [iesBytes, ieBytes]
        have h7 : 1 ≤ (headerBytes d h).length := by simp [headerBytes]
        omega
      rw [hbytes]
      simp only [ieBytes, headerBytes, List.cons_append]
      simp [parseIEs, h1, h2, h3, h4, h5, ih f hrest hfuel2]
    | P p =>
      simp only [InformationElement.valid] at hie
      have hlt : p.payload.length < 2 ^ 16 := by omega
      obtain ⟨f, rfl⟩ : ∃ f, fuel = f + 1 := by
        cases fuel with
        | zero =>
          exfalso
          simp [iesBytes, ieBytes, payloadBytes] at hlen
        | succ f => exact ⟨f, rfl⟩
      have h1 : readU16be
          (be16 p.payload.length ++ (p.payload ++ iesBytes d rest))
          = some (p.payload.length, p.payload ++ iesBytes d rest) :=
        readU16be_be16 _ _ hlt
      have h2 : readExact p.payload.length (p.payload ++ iesBytes d rest)
          = some (p.payload, iesBytes d rest) := readExact_append _ _ _ rfl
      have hfuel2 : (iesBytes d rest).length ≤ f := by
        have h6 : (iesBytes d (InformationElement.P p :: rest)).length
            = (payloadBytes d p).length + (iesBytes d rest).length := by
          simp [iesBytes, ieBytes]
        have h7 : 1 ≤ (payloadBytes d p).length := by simp [payloadBytes]
        omega
      rw [hbytes]
      simp only [ieBytes, payloadBytes, List.cons_append]
      simp [parseIEs, payloadIEI_ne_headerIEI, h1, h2, ih f hrest hfuel2]

theorem Message.decode_encode (d : Direction) (m : Message)
    (hv : m.valid) (s : List Nat) (he : Message.encode d m = some s) :
    Message.decode d s = Except.ok m := by
  obtain ⟨hh, hp, hval⟩ := hv
  have henc : encodeIEs d m.ies [] = some (iesBytes d m.ies) := by
    simpa using encodeIEs_eq d m.ies [] hval
  simp only [Message.encode, henc] at he
  by_cases hlt : (iesBytes d m.ies).length < 2 ^ 16
  · rw [if_pos hlt] at he
    have hs : s = 1 :: (be16 (iesBytes d m.ies).length ++ iesBytes d m.ies) := by
      simpa [writeU8, writeU16be] using he.symm
    subst hs
    have hlen3 : ¬ ((1 :: (be16 (iesBytes d m.ies).length ++
        iesBytes d m.ies)).length < 3) := by
      simp [be16]
    rw [Message.decode, if_neg hlen3]
    have hread : readU16be (be16 (iesBytes d m.ies).length ++
        iesBytes d m.ies) = some ((iesBytes d m.ies).length,
        iesBytes d m.ies) := readU16be_be16 _ _ hlt
    simp only [hread, if_pos rfl]
    rw [if_pos (Nat.le_refl _)]
    rw [List.take_length]
    rw [parseIEs_iesBytes d m.ies _ hval (Nat.le_refl _)]
    simp [hh, hp]
  · rw [if_neg hlt] at he
    exact absurd he (by simp)

/-! Claim theorems. -/

/-- Claim C1: for every MT Header value (fields in their machine ranges,
15 IMEI bytes), `Header.write` appends exactly the tag byte `0x41`, the
16-bit big-endian length 21, the 4-byte big-endian client message id, the
15 IMEI bytes verbatim, and the 2-byte big-endian disposition flags; and
the example header (client_msg_id 9999, IMEI bytes 0..14, flags 9999)
produces exactly
`41 00 15 00 00 27 0f 00 01 02 03 04 05 06 07 08 09 0a 0b 0c 0d 0e 27 0f`. -/
theorem header_write_wire_bytes :
    (∀ (h : Header) (wtr : List Nat),
      h.client_msg_id < 2 ^ 32 → h.imei.length = 15 →
      h.disposition_flags < 2 ^ 16 →
      h.write wtr = (wtr ++ (0x41 :: (be16 21 ++ (be32 h.client_msg_id ++
        (h.imei ++ be16 h.disposition_flags)))), 24))
    ∧ (Header.write
        ⟨9999, [0, 1, 2, 3, 4, 5, 6, 7, 8, 9, 10, 11, 12, 13, 14], 9999⟩
        []).1
      = [0x41, 0x00, 0x15, 0x00, 0x00, 0x27, 0x0f, 0x00, 0x01, 0x02, 0x03,
         0x04, 0x05, 0x06, 0x07, 0x08, 0x09, 0x0a, 0x0b, 0x0c, 0x0d, 0x0e,
         0x27, 0x0f] := by
  constructor
  · intro h wtr _ _ _
    rw [← headerWriteDir_MT, headerWriteDir_eq]
    simp [headerBytes, headerIEI]
  · decide

/-- Witness for C1: the universally quantified part applied at the example
header of the source test `header_write`. -/
theorem header_write_wire_bytes_witness :
    Header.write
        ⟨9999, [0, 1, 2, 3, 4, 5, 6, 7, 8, 9, 10, 11, 12, 13, 14], 9999⟩ []
      = ([0x41, 0x00, 0x15, 0x00, 0x00, 0x27, 0x0f, 0x00, 0x01, 0x02, 0x03,
          0x04, 0x05, 0x06, 0x07, 0x08, 0x09, 0x0a, 0x0b, 0x0c, 0x0d, 0x0e,
          0x27, 0x0f], 24) := by
  simpa using header_write_wire_bytes.1
    ⟨9999, [0, 1, 2, 3, 4, 5, 6, 7, 8, 9, 10, 11, 12, 13, 14], 9999⟩ []
    (by decide) (by decide) (by decide)

/-- Claim C2: `DispositionFlags.encode` maps each flag to its own fixed bit
of the result (flush_queue bit 0, send_ring_alert bit 1, update_location
bit 3, high_priority bit 4, assign_mtmsn bit 5), and the five concrete
encodings of the source tests hold: flush_queue alone is 1, send_ring_alert
alone is 2, assign_mtmsn alone is 32, all five flags is 59, none is 0. -/
theorem disposition_flags_bit_mapping :
    (∀ f : DispositionFlags,
      (f.encode).testBit 0 = f.flush_queue ∧
      (f.encode).testBit 1 = f.send_ring_alert ∧
      (f.encode).testBit 3 = f.update_location ∧
      (f.encode).testBit 4 = f.high_priority ∧
      (f.encode).testBit 5 = f.assign_mtmsn)
    ∧ DispositionFlags.encode ⟨true, false, false, false, false⟩ = 1
    ∧ DispositionFlags.encode ⟨false, true, false, false, false⟩ = 2
    ∧ DispositionFlags.encode ⟨false, false, false, false, true⟩ = 32
    ∧ DispositionFlags.encode ⟨true, true, true, true, true⟩ = 59
    ∧ DispositionFlags.encode ⟨false, false, false, false, false⟩ = 0 := by
  refine ⟨?_, by decide, by decide, by decide, by decide, by decide⟩
  intro f
  obtain ⟨a, b, c, d, e⟩ := f
  cases a <;> cases b <;> cases c <;> cases d <;> cases e <;> decide

/-- Counterexample to claim C4: update_location alone encodes to 8, whose
bit 3 is set, so bit 3 of the encoding is not always zero. -/
theorem bit3_carries_update_location :
    DispositionFlags.encode ⟨false, false, true, false, false⟩ = 8 ∧
      Nat.testBit
        (DispositionFlags.encode ⟨false, false, true, false, false⟩) 3
        = true := by
  decide

/-- Claim C4 as amended: the reserved, always-zero bit of the encoding is
bit 2, not bit 3 (bit 3 carries update_location): for every combination of
the five flags, bit 2 of the encoded value is zero. -/
theorem bit2_reserved :
    ∀ f : DispositionFlags, (f.encode).testBit 2 = false := by
  intro f
  obtain ⟨a, b, c, d, e⟩ := f
  cases a <;> cases b <;> cases c <;> cases d <;> cases e <;> decide

/-- Counterexample to claim C5: the example header of the source tests has
IMEI bytes 0..14, none of which is an ASCII digit, yet `Header.write`
succeeds and writes those bytes verbatim instead of raising any
invalid-IMEI error. -/
theorem nondigit_imei_encoded_verbatim :
    (¬ ∀ b ∈ ([0, 1, 2, 3, 4, 5, 6, 7, 8, 9, 10, 11, 12, 13, 14] : List Nat),
        48 ≤ b ∧ b ≤ 57)
    ∧ (Header.write
        ⟨9999, [0, 1, 2, 3, 4, 5, 6, 7, 8, 9, 10, 11, 12, 13, 14], 9999⟩
        []).1
      = [0x41, 0x00, 0x15, 0x00, 0x00, 0x27, 0x0f, 0x00, 0x01, 0x02, 0x03,
         0x04, 0x05, 0x06, 0x07, 0x08, 0x09, 0x0a, 0x0b, 0x0c, 0x0d, 0x0e,
         0x27, 0x0f] := by
  constructor
  · decide
  · decide

/-- Claim C5 as amended: `Header` stores its IMEI bytes raw and
`Header.write` outputs them verbatim unconditionally; no ASCII-digit
validation exists and no invalid-IMEI error can arise from writing a
header (the `InvalidImei` variant of `SbdError` is never raised here). -/
theorem header_write_no_imei_validation :
    ∀ (h : Header) (wtr : List Nat),
      (h.write wtr).1 = wtr ++ (0x41 :: (be16 21 ++ (be32 h.client_msg_id ++
        (h.imei ++ be16 h.disposition_flags)))) := by
  intro h wtr
  rw [← headerWriteDir_MT, headerWriteDir_eq]
  simp [headerBytes, headerIEI]

/-- Counterexample to claim C3: a payload of 1891 bytes exceeds the
documented protocol maximum of 1890, yet `Payload.write` accepts it (the
result is `some`, not an error): the 1890-byte maximum is not enforced
anywhere in the source. -/
theorem payload_oversize_not_rejected :
    1890 < Payload.len ⟨List.replicate 1891 0⟩ ∧
      (Payload.write ⟨List.replicate 1891 0⟩ []).isSome = true := by
  have hlen : (Payload.mk (List.replicate 1891 0)).payload.length
      < 2 ^ 16 := by
    simp only [List.length_replicate]
    norm_num
  have h1 : Payload.writeDir .MT ⟨List.replicate 1891 0⟩ []
      = some ([] ++ payloadBytes .MT ⟨List.replicate 1891 0⟩,
        3 + (Payload.mk (List.replicate 1891 0)).payload.length) :=
    payloadWriteDir_eq .MT ⟨List.replicate 1891 0⟩ [] hlen
  refine ⟨?_, ?_⟩
  · simp only [Payload.len, List.length_replicate]
    norm_num
  · rw [← payloadWriteDir_MT, h1]
    rfl

/-- Claim C3 as amended: whenever the payload byte count fits in 16 bits,
`Payload.write` emits the tag byte `0x42`, the 16-bit big-endian byte
count, then the raw payload bytes unchanged; a byte count outside the
16-bit range makes the write fail outright (the source panics: modelled as
`none`, never a silent truncation); the documented 1890-byte protocol
maximum is not checked, so lengths 1891 through 65535 encode successfully. -/
theorem payload_write_wire_bytes :
    (∀ (p : Payload) (wtr : List Nat), p.payload.length < 2 ^ 16 →
      p.write wtr = some (wtr ++ (0x42 :: (be16 p.payload.length ++
        p.payload)), 3 + p.payload.length))
    ∧ (∀ (p : Payload) (wtr : List Nat), 2 ^ 16 ≤ p.payload.length →
      p.write wtr = none) := by
  constructor
  · intro p wtr hlen
    rw [← payloadWriteDir_MT, payloadWriteDir_eq _ _ _ hlen]
    simp [payloadBytes, payloadIEI]
  · intro p wtr hlen
    simp only [Payload.write]
    rw [if_neg (by omega)]

/-- Witness for the amended C3: both parts applied at concrete payloads. -/
theorem payload_write_wire_bytes_witness :
    Payload.write ⟨[7, 8]⟩ [] = some ([0x42, 0, 2, 7, 8], 5) ∧
      Payload.write ⟨List.replicate (2 ^ 16) 0⟩ [] = none := by
  constructor
  · simpa using payload_write_wire_bytes.1 ⟨[7, 8]⟩ [] (by decide)
  · exact payload_write_wire_bytes.2 ⟨List.replicate (2 ^ 16) 0⟩ []
      (by rw [List.length_replicate])

/-- Claim C6: among the `SbdError` variants, `Undersized` carries exactly
one `usize` (it is determined by and determines it), the revision error
carries exactly one `u8`, and `Oversized` is a bare variant distinct from
both of them. -/
theorem sbd_error_variant_payloads :
    (∀ n m : Nat, SbdError.Undersized n = SbdError.Undersized m → n = m)
    ∧ (∀ a b : Fin 256, SbdError.InvalidProtocolRevisionNumber a =
        SbdError.InvalidProtocolRevisionNumber b → a = b)
    ∧ (∀ n : Nat, SbdError.Oversized ≠ SbdError.Undersized n)
    ∧ (∀ a : Fin 256, SbdError.Oversized ≠
        SbdError.InvalidProtocolRevisionNumber a) := by
  refine ⟨fun n m h => ?_, fun a b h => ?_, fun n h => ?_, fun a h => ?_⟩
  · exact SbdError.Undersized.inj h
  · exact SbdError.InvalidProtocolRevisionNumber.inj h
  · exact SbdError.noConfusion h
  · exact SbdError.noConfusion h

/-- Witness for C6: the injectivity parts applied at concrete values. -/
theorem sbd_error_variant_payloads_witness :
    (5 : Nat) = 5 ∧ SbdError.Oversized ≠ SbdError.Undersized 0 :=
  ⟨sbd_error_variant_payloads.1 5 5 rfl,
    sbd_error_variant_payloads.2.2.1 0⟩

/-- Claim C7: for every validly constructed message (at least one header
and one payload element, all elements in range), in either direction,
decoding the encoded byte stream recovers the message field for field. -/
theorem message_roundtrip (d : Direction) (m : Message) (hv : m.valid)
    (s : List Nat) (he : Message.encode d m = some s) :
    Message.decode d s = Except.ok m :=
  Message.decode_encode d m hv s he

/-- Witness for C7: a concrete two-element MT message encodes and decodes
back to itself. -/
theorem message_roundtrip_witness :
    Message.decode .MT ((Message.encode .MT
        ⟨[.H ⟨9999, [48, 49, 50, 51, 52, 53, 54, 55, 56, 57, 48, 49, 50, 51,
          52], 3⟩, .P ⟨[10, 20, 30]⟩]⟩).getD [])
      = Except.ok ⟨[.H ⟨9999, [48, 49, 50, 51, 52, 53, 54, 55, 56, 57, 48,
          49, 50, 51, 52], 3⟩, .P ⟨[10, 20, 30]⟩]⟩ :=
  message_roundtrip .MT _ (by decide) _ rfl

/-- Claim C8: `Header.write` always grows the writer by exactly 24 bytes
and returns 24, while `Header.len` is the body length 21, so the returned
count is `len + 3` and equals the number of bytes written. -/
theorem header_write_count (h : Header) (wtr : List Nat)
    (him : h.imei.length = 15) :
    (h.write wtr).1.length = wtr.length + 24 ∧
      (h.write wtr).2 = 24 ∧
      h.len = 21 ∧
      (h.write wtr).2 = h.len + 3 := by
  have h1 : h.write wtr = (wtr ++ headerBytes .MT h, 24) := by
    rw [← headerWriteDir_MT, headerWriteDir_eq]
  refine ⟨?_, by simp [h1], rfl, by simp [h1, Header.len]⟩
  simp [h1, headerBytes, be16, be32, him]

/-- Witness for C8: the count facts at the example header. -/
theorem header_write_count_witness :
    (Header.write
        ⟨9999, [0, 1, 2, 3, 4, 5, 6, 7, 8, 9, 10, 11, 12, 13, 14], 9999⟩
        []).1.length = ([] : List Nat).length + 24 ∧
      (Header.write
        ⟨9999, [0, 1, 2, 3, 4, 5, 6, 7, 8, 9, 10, 11, 12, 13, 14], 9999⟩
        []).2 = 24 ∧
      Header.len
        ⟨9999, [0, 1, 2, 3, 4, 5, 6, 7, 8, 9, 10, 11, 12, 13, 14], 9999⟩
        = 21 ∧
      (Header.write
        ⟨9999, [0, 1, 2, 3, 4, 5, 6, 7, 8, 9, 10, 11, 12, 13, 14], 9999⟩
        []).2 = Header.len
        ⟨9999, [0, 1, 2, 3, 4, 5, 6, 7, 8, 9, 10, 11, 12, 13, 14], 9999⟩
        + 3 :=
  header_write_count
    ⟨9999, [0, 1, 2, 3, 4, 5, 6, 7, 8, 9, 10, 11, 12, 13, 14], 9999⟩ []
    (by decide)

/-- Claim C9: when the payload byte count fits in a `u16`, `Payload.write`
succeeds, grows the writer by exactly `3 + length` bytes, and returns
`3 + length`, while `Payload.len` is the payload byte count. -/
theorem payload_write_count (p : Payload) (wtr : List Nat)
    (hlen : p.payload.length < 2 ^ 16) :
    ∃ out n, p.write wtr = some (out, n) ∧
      out.length = wtr.length + (3 + p.payload.length) ∧
      n = 3 + p.payload.length ∧
      p.len = p.payload.length := by
  have h1 : p.write wtr
      = some (wtr ++ payloadBytes .MT p, 3 + p.payload.length) := by
    rw [← payloadWriteDir_MT, payloadWriteDir_eq _ _ _ hlen]
  refine ⟨_, _, h1, ?_, rfl, rfl⟩
  simp [payloadBytes, be16]
  omega

/-- Witness for C9: the count facts at a concrete three-byte payload. -/
theorem payload_write_count_witness :
    ∃ out n, Payload.write ⟨[1, 2, 3]⟩ [] = some (out, n) ∧
      out.length = ([] : List Nat).length +
        (3 + ([1, 2, 3] : List Nat).length) ∧
      n = 3 + ([1, 2, 3] : List Nat).length ∧
      Payload.len ⟨[1, 2, 3]⟩ = ([1, 2, 3] : List Nat).length :=
  payload_write_count ⟨[1, 2, 3]⟩ [] (by decide)

/-- Claim C10: for every combination of the five flags the encoding is at
most 59, bit 2 is zero, and every bit from 6 upward is zero: no reserved
or out-of-range bit is ever set. -/
theorem disposition_flags_encode_bounds :
    ∀ f : DispositionFlags, f.encode ≤ 59 ∧
      (f.encode).testBit 2 = false ∧
      ∀ i : Nat, 6 ≤ i → (f.encode).testBit i = false := by
  intro f
  obtain ⟨a, b, c, d, e⟩ := f
  have hle : DispositionFlags.encode ⟨a, b, c, d, e⟩ ≤ 59 := by
    cases a <;> cases b <;> cases c <;> cases d <;> cases e <;> decide
  have hbit2 : (DispositionFlags.encode ⟨a, b, c, d, e⟩).testBit 2
      = false := by
    cases a <;> cases b <;> cases c <;> cases d <;> cases e <;> decide
  refine ⟨hle, hbit2, fun i hi => ?_⟩
  have h64 : DispositionFlags.encode ⟨a, b, c, d, e⟩ < 2 ^ 6 := by
    omega
  exact Nat.testBit_lt_two_pow
    (lt_of_lt_of_le h64 (Nat.pow_le_pow_right (by norm_num) hi))

/-- Witness for C10: the high-bit part applied at the all-true flags and
bit 6. -/
theorem disposition_flags_encode_bounds_witness :
    Nat.testBit
      (DispositionFlags.encode ⟨true, true, true, true, true⟩) 6 = false :=
  (disposition_flags_encode_bounds ⟨true, true, true, true, true⟩).2.2 6
    (by decide)

end Sbd
